import Mathlib

/-!
Shallow embedding of the learning-management backend's core business logic:
the enrollment state machine, the learning-record aggregation logic and the
resource-scoped authorization helpers, translated from the request handlers in
`src/app/api/enrollments/[id]/route.ts`, `src/app/api/learning-records/route.ts`,
`src/app/api/learning-records/[id]/route.ts` and `src/lib/auth-helpers.ts`.

Modelling conventions:
* ids are `Nat` (the source uses opaque uuid strings; only equality is used);
* timestamps are `Int` milliseconds since the epoch; the calendar date of a
  timestamp (the source's `toISOString().split('T')[0]`) is modelled as the
  UTC day index `fdiv ms 86400000`, so two timestamps have the same calendar
  date iff they have the same day index;
* JavaScript `Math.round((end - start) / 60000)` on integer millisecond
  inputs equals `⌊(end - start + 30000) / 60000⌋`, modelled with `Int.fdiv`;
* JavaScript truthiness of a possibly-undefined number (`!x`) is modelled by
  `truthy : Option Int → Bool` (`none` and `some 0` are falsy);
* the persistent store is a `Store` of lists; Supabase `update ... eq(id)`
  becomes a `List.map` over matching ids, `delete ... eq(id)` a filter, and
  `select ... single()` a `List.find?`;
* free-text fields (memo) and the understanding level are omitted: no claim
  mentions them and they flow through the handlers unchanged.
-/

namespace LMS

inductive Role where
  | admin
  | learner
deriving DecidableEq, Repr

/-- An authenticated session (`session.user` in the source). -/
structure Session where
  userId : Nat
  role : Role
deriving DecidableEq, Repr

/-- Translation of `isAdmin` from `src/lib/auth-helpers.ts`. -/
def isAdmin (s : Session) : Bool :=
  s.role == .admin

inductive EStatus where
  | assigned
  | inProgress
  | completed
  | cancelled
deriving DecidableEq, Repr

structure Enrollment where
  id : Nat
  learnerId : Nat
  courseId : Nat
  status : EStatus
  progressPercentage : Int
  startedAt : Option Int
  completedAt : Option Int
  dueDate : Option Int
deriving DecidableEq, Repr

structure Course where
  id : Nat
  isActive : Bool
deriving DecidableEq, Repr

structure LearningRecord where
  id : Nat
  enrollmentId : Nat
  courseId : Nat
  learnerId : Nat
  sessionStartTime : Int
  sessionEndTime : Option Int
  sessionDurationMinutes : Option Int
  sessionDate : Int
  progressPercentage : Option Int
  cumulativeLearningMinutes : Int
  createdAt : Int
deriving DecidableEq, Repr

structure Store where
  enrollments : List Enrollment
  courses : List Course
  records : List LearningRecord
deriving DecidableEq, Repr

inductive ApiErr where
  | notFound
  | forbidden
  | staleEditWindow
  | cancelledEnrollment
  | inactiveCourse
deriving DecidableEq, Repr

/-- UTC day index of a millisecond timestamp; equality of day indices models
equality of the `toISOString().split('T')[0]` calendar dates. -/
def dateOfMs (ms : Int) : Int :=
  Int.fdiv ms 86400000

/-- JavaScript `Math.round((endMs - startMs) / 60000)` on integer inputs. -/
def jsRoundMinutes (startMs endMs : Int) : Int :=
  Int.fdiv (endMs - startMs + 30000) 60000

/-- JavaScript truthiness of a possibly-undefined number. -/
def truthy : Option Int → Bool
  | none => false
  | some v => !(v == 0)

/-- Sum of `session_duration_minutes` over a list of records, an absent
duration contributing 0 (the `(record.session_duration_minutes || 0)`
reduction in the handlers). -/
def sumDur (l : List LearningRecord) : Int :=
  (l.map (fun r => r.sessionDurationMinutes.getD 0)).sum

/-- The records of one enrollment (`.eq("enrollment_id", eid)`). -/
def recordsOf (st : Store) (eid : Nat) : List LearningRecord :=
  st.records.filter (fun r => r.enrollmentId == eid)

/-- The handlers' running-total query: records of the enrollment whose
duration is non-null, then summed. -/
def totalNonNull (l : List LearningRecord) : Int :=
  ((l.filter (fun r => r.sessionDurationMinutes.isSome)).map
    (fun r => r.sessionDurationMinutes.getD 0)).sum

/-- One comparison step of the `order("session_start_time", desc).limit(1)`
selection. -/
def laterOf (acc : Option LearningRecord) (r : LearningRecord) : Option LearningRecord :=
  match acc with
  | none => some r
  | some m => if r.sessionStartTime > m.sessionStartTime then some r else some m

/-- The `order("session_start_time", desc).limit(1)` selection: the record
with the greatest `session_start_time` (first one wins ties). -/
def latestOf (l : List LearningRecord) : Option LearningRecord :=
  l.foldl laterOf none

/-- Supabase `update ... .eq("id", e.id)` on the enrollments table. -/
def putEnrollment (st : Store) (e' : Enrollment) : Store :=
  { st with enrollments := st.enrollments.map (fun e => if e.id == e'.id then e' else e) }

/-! ### Authorization helpers (`src/lib/auth-helpers.ts`) -/

/-- Translation of `canAccessResource`: `none` is an unauthenticated caller
(`isAuthenticated` fails), admins pass, otherwise the session user must own
the resource. -/
def canAccessResource (sess : Option Session) (resourceUserId : Nat) : Bool :=
  match sess with
  | none => false
  | some s => if isAdmin s then true else s.userId == resourceUserId

/-- Translation of `canAccessCourse`: `none` is an unauthenticated caller,
admins pass, otherwise an enrollment `(course_id, learner_id)` must exist in
the store (the `.single()` lookup; a lookup failure yields `false`). -/
def canAccessCourse (sess : Option Session) (courseId : Nat)
    (enrollments : List Enrollment) : Bool :=
  match sess with
  | none => false
  | some s =>
    if isAdmin s then true
    else (enrollments.find? (fun e => e.courseId == courseId && e.learnerId == s.userId)).isSome

/-! ### GET /api/enrollments/[id] -/

/-- Translation of the enrollment GET handler: the query filters by id and,
for non-admins, additionally by `learner_id = session.user.id`; `.single()`
returning no row is the 404 case. -/
def getEnrollment (st : Store) (sess : Session) (eid : Nat) : Except ApiErr Enrollment :=
  match st.enrollments.find? (fun e => e.id == eid && (isAdmin sess || e.learnerId == sess.userId)) with
  | none => .error .notFound
  | some e => .ok e

/-! ### PUT /api/enrollments/[id] -/

/-- The validated `enrollmentUpdateSchema` body: every field optional;
`started_at`/`completed_at` are datetime strings (never null) when present. -/
structure EnrollmentUpdateInput where
  progressPercentage : Option Int
  status : Option EStatus
  dueDate : Option Int
  startedAt : Option Int
  completedAt : Option Int
deriving DecidableEq, Repr

/-- The admin branch of the enrollment PUT handler: each supplied field is
copied into `updateData` unconditionally. -/
def adminEnrollmentUpdate (e : Enrollment) (u : EnrollmentUpdateInput) : Enrollment :=
  { e with
    progressPercentage := u.progressPercentage.getD e.progressPercentage
    status := u.status.getD e.status
    dueDate := if u.dueDate.isSome then u.dueDate else e.dueDate
    startedAt := if u.startedAt.isSome then u.startedAt else e.startedAt
    completedAt := if u.completedAt.isSome then u.completedAt else e.completedAt }

/-- The learner branch of the enrollment PUT handler, with the source's
sequential `updateData` assignments (later assignments overwrite earlier
ones); every condition reads the *existing* enrollment `e` and the
validated body `u`, exactly as in the handler. -/
def learnerEnrollmentUpdate (e : Enrollment) (u : EnrollmentUpdateInput) (now : Int) : Enrollment :=
  let d1 :=
    { e with progressPercentage := u.progressPercentage.getD e.progressPercentage }
  let d2 :=
    match u.status with
    | none => d1
    | some s =>
      if e.status == .assigned && s == .inProgress then
        { d1 with status := s, startedAt := some now }
      else if e.status == .inProgress && s == .completed &&
          (u.progressPercentage == some 100 || e.progressPercentage == 100) then
        { d1 with status := s, completedAt := some now, progressPercentage := 100 }
      else d1
  let d3 :=
    if u.startedAt.isSome && e.status == .assigned then
      { d2 with startedAt := u.startedAt, status := .inProgress }
    else d2
  if u.completedAt.isSome && u.progressPercentage == some 100 then
    { d3 with completedAt := u.completedAt, status := .completed, progressPercentage := 100 }
  else d3

/-- Translation of the enrollment PUT handler: lookup, ownership check, then
the admin or learner field update. -/
def updateEnrollment (st : Store) (sess : Session) (eid : Nat)
    (u : EnrollmentUpdateInput) (now : Int) : Except ApiErr (Enrollment × Store) :=
  match st.enrollments.find? (fun e => e.id == eid) with
  | none => .error .notFound
  | some e =>
    if !isAdmin sess && e.learnerId != sess.userId then .error .forbidden
    else
      let e' := if isAdmin sess then adminEnrollmentUpdate e u else learnerEnrollmentUpdate e u now
      .ok (e', putEnrollment st e')

/-! ### POST /api/learning-records -/

/-- The validated `learningRecordCreateSchema` body (memo and understanding
level omitted, see the header). A schema-valid body has
`session_duration_minutes ∈ [1,1440]` and `progress_percentage ∈ [0,100]`
when present. -/
structure RecordCreateInput where
  enrollmentId : Nat
  courseId : Nat
  learnerId : Nat
  sessionStartTime : Int
  sessionEndTime : Option Int
  sessionDurationMinutes : Option Int
  progressPercentage : Option Int
deriving DecidableEq, Repr

/-- The enrollment progress update performed at the end of a successful
learning-record create (`POST /api/learning-records`, the
`progress_percentage !== undefined` block). -/
def applyProgressOnCreate (e : Enrollment) (p : Int) (now : Int) : Enrollment :=
  let e1 := { e with progressPercentage := p }
  let e2 :=
    if e.status == .assigned then { e1 with status := .inProgress, startedAt := some now }
    else e1
  if p == 100 then { e2 with status := .completed, completedAt := some now } else e2

/-- The enrollment progress update performed at the end of a successful
learning-record update (`PUT /api/learning-records/[id]`): same progress
write and 100%-completion branch, but no `assigned → in_progress` branch. -/
def applyProgressOnUpdate (e : Enrollment) (p : Int) (now : Int) : Enrollment :=
  let e1 := { e with progressPercentage := p }
  if p == 100 then { e1 with status := .completed, completedAt := some now } else e1

/-- Translation of the learning-record POST handler. `newId` stands for the
store-generated row id, `now` for `new Date()`. On success it returns the
inserted record and the new store (record appended, then the enrollment
progress update applied when the body carries `progress_percentage`). -/
def createLearningRecord (st : Store) (sess : Session) (inp : RecordCreateInput)
    (newId : Nat) (now : Int) : Except ApiErr (LearningRecord × Store) :=
  if !isAdmin sess && inp.learnerId != sess.userId then .error .forbidden
  else
    match st.enrollments.find? (fun e =>
        e.id == inp.enrollmentId && e.learnerId == inp.learnerId && e.courseId == inp.courseId) with
    | none => .error .notFound
    | some enr =>
      if enr.status == .cancelled then .error .cancelledEnrollment
      else
        match st.courses.find? (fun c => c.id == inp.courseId) with
        | none => .error .inactiveCourse
        | some course =>
          if !course.isActive then .error .inactiveCourse
          else
            let dur :=
              if !truthy inp.sessionDurationMinutes && inp.sessionEndTime.isSome then
                some (jsRoundMinutes inp.sessionStartTime (inp.sessionEndTime.getD 0))
              else inp.sessionDurationMinutes
            let existing := (recordsOf st inp.enrollmentId).filter
              (fun r => r.sessionDurationMinutes.isSome)
            let cum := (existing.map (fun r => r.sessionDurationMinutes.getD 0)).sum + dur.getD 0
            let newRec :=
              { id := newId
                enrollmentId := inp.enrollmentId
                courseId := inp.courseId
                learnerId := inp.learnerId
                sessionStartTime := inp.sessionStartTime
                sessionEndTime := inp.sessionEndTime
                sessionDurationMinutes := dur
                sessionDate := dateOfMs inp.sessionStartTime
                progressPercentage := inp.progressPercentage
                cumulativeLearningMinutes := cum
                createdAt := now }
            let st1 := { st with records := st.records ++ [newRec] }
            let st2 :=
              match inp.progressPercentage with
              | none => st1
              | some p => putEnrollment st1 (applyProgressOnCreate enr p now)
            .ok (newRec, st2)

/-! ### PUT /api/learning-records/[id] -/

/-- The validated `learningRecordUpdateSchema` body (memo and understanding
level omitted). -/
structure RecordUpdateInput where
  sessionEndTime : Option Int
  sessionDurationMinutes : Option Int
  progressPercentage : Option Int
deriving DecidableEq, Repr

/-- Translation of the learning-record PUT handler: lookup, ownership check,
same-day window for non-admins, duration re-derivation from the *stored*
start time, cumulative recomputation when the duration changes, record
update, then the enrollment progress update. -/
def updateLearningRecord (st : Store) (sess : Session) (rid : Nat)
    (patch : RecordUpdateInput) (now : Int) : Except ApiErr (LearningRecord × Store) :=
  match st.records.find? (fun r => r.id == rid) with
  | none => .error .notFound
  | some r =>
    if !isAdmin sess && r.learnerId != sess.userId then .error .forbidden
    else if !isAdmin sess && dateOfMs r.createdAt != dateOfMs now then .error .staleEditWindow
    else
      let dur :=
        if patch.sessionEndTime.isSome && !truthy patch.sessionDurationMinutes then
          some (jsRoundMinutes r.sessionStartTime (patch.sessionEndTime.getD 0))
        else patch.sessionDurationMinutes
      let cumOpt :=
        if dur.isSome && dur != r.sessionDurationMinutes then
          let others := st.records.filter (fun x =>
            x.enrollmentId == r.enrollmentId && x.id != rid && x.sessionDurationMinutes.isSome)
          some ((others.map (fun x => x.sessionDurationMinutes.getD 0)).sum + dur.getD 0)
        else none
      let r' :=
        { r with
          sessionEndTime := if patch.sessionEndTime.isSome then patch.sessionEndTime else r.sessionEndTime
          sessionDurationMinutes := if dur.isSome then dur else r.sessionDurationMinutes
          cumulativeLearningMinutes := cumOpt.getD r.cumulativeLearningMinutes
          progressPercentage :=
            if patch.progressPercentage.isSome then patch.progressPercentage
            else r.progressPercentage }
      let st1 := { st with records := st.records.map (fun x => if x.id == rid then r' else x) }
      let st2 :=
        match patch.progressPercentage with
        | none => st1
        | some p =>
          match st.enrollments.find? (fun e => e.id == r.enrollmentId) with
          | none => st1
          | some enr => putEnrollment st1 (applyProgressOnUpdate enr p now)
      .ok (r', st2)

/-! ### DELETE /api/learning-records/[id] -/

/-- Translation of the learning-record DELETE handler: lookup, ownership
check, same-day window for non-admins, deletion, and — when the deleted
record's duration is truthy — recomputation of the cumulative total onto the
chronologically-latest remaining record of the enrollment, provided at least
one remaining record has a non-null duration. -/
def deleteLearningRecord (st : Store) (sess : Session) (rid : Nat)
    (now : Int) : Except ApiErr Store :=
  match st.records.find? (fun r => r.id == rid) with
  | none => .error .notFound
  | some r =>
    if !isAdmin sess && r.learnerId != sess.userId then .error .forbidden
    else if !isAdmin sess && dateOfMs r.createdAt != dateOfMs now then .error .staleEditWindow
    else
      if truthy r.sessionDurationMinutes then
        if ((st.records.filter (fun x => x.id != rid)).filter (fun x =>
            x.enrollmentId == r.enrollmentId && x.sessionDurationMinutes.isSome)).length > 0 then
          match latestOf ((st.records.filter (fun x => x.id != rid)).filter (fun x =>
              x.enrollmentId == r.enrollmentId)) with
          | none => .ok { st with records := st.records.filter (fun x => x.id != rid) }
          | some latest =>
            .ok { st with records := (st.records.filter (fun x => x.id != rid)).map (fun x =>
              if x.id == latest.id then
                { x with cumulativeLearningMinutes :=
                    (((st.records.filter (fun x => x.id != rid)).filter (fun x =>
                        x.enrollmentId == r.enrollmentId &&
                          x.sessionDurationMinutes.isSome)).map
                      (fun x => x.sessionDurationMinutes.getD 0)).sum }
              else x) }
        else .ok { st with records := st.records.filter (fun x => x.id != rid) }
      else .ok { st with records := st.records.filter (fun x => x.id != rid) }

/-! ### Operation traces over the learning-record endpoints -/

inductive Op where
  | create (inp : RecordCreateInput) (newId : Nat) (now : Int)
  | update (rid : Nat) (patch : RecordUpdateInput) (now : Int)
  | delete (rid : Nat) (now : Int)
deriving DecidableEq, Repr

/-- One sequential request: a failed request leaves the store unchanged. -/
def runOp (sess : Session) (st : Store) (op : Op) : Store :=
  match op with
  | .create inp newId now =>
    match createLearningRecord st sess inp newId now with
    | .ok (_, st') => st'
    | .error _ => st
  | .update rid patch now =>
    match updateLearningRecord st sess rid patch now with
    | .ok (_, st') => st'
    | .error _ => st
  | .delete rid now =>
    match deleteLearningRecord st sess rid now with
    | .ok st' => st'
    | .error _ => st

def runOps (sess : Session) (st : Store) (ops : List Op) : Store :=
  ops.foldl (runOp sess) st

/-- Reconciliation check for one enrollment: the cumulative total stored on
the chronologically-latest record equals the sum of the durations of all its
records (vacuously true with no records). -/
def reconciledB (st : Store) (eid : Nat) : Bool :=
  match latestOf (recordsOf st eid) with
  | none => true
  | some l => l.cumulativeLearningMinutes == sumDur (recordsOf st eid)

/-! ### Result observers and trace predicates -/

def exceptOk {α : Type} : Except ApiErr α → Bool
  | .ok _ => true
  | .error _ => false

/-- Status of the enrollment returned by a successful enrollment update. -/
def resultStatus : Except ApiErr (Enrollment × Store) → Option EStatus
  | .ok (e, _) => some e.status
  | .error _ => none

/-- Progress of the enrollment returned by a successful enrollment update. -/
def resultProgress : Except ApiErr (Enrollment × Store) → Option Int
  | .ok (e, _) => some e.progressPercentage
  | .error _ => none

/-- Timestamp field of the enrollment returned by a successful update. -/
def resultCompletedAt : Except ApiErr (Enrollment × Store) → Option (Option Int)
  | .ok (e, _) => some e.completedAt
  | .error _ => none

/-- The record inserted by a successful learning-record create. -/
def createdRecord : Except ApiErr (LearningRecord × Store) → Option LearningRecord
  | .ok (r, _) => some r
  | .error _ => none

def opIsUpdate : Op → Bool
  | .update _ _ _ => true
  | _ => false

/-- A create operation whose body carries an explicit, schema-valid (≥ 1)
session duration; non-create operations satisfy this vacuously. -/
def opCreateDurOk : Op → Bool
  | .create inp _ _ =>
    match inp.sessionDurationMinutes with
    | some d => decide (1 ≤ d)
    | none => false
  | _ => true

def opCreateStart : Op → Option Int
  | .create inp _ _ => some inp.sessionStartTime
  | _ => none

def opCreateId : Op → Option Nat
  | .create _ nid _ => some nid
  | _ => none

/-- Chronological ordering of two trace operations: any create in the first
position starts strictly before, and uses a different fresh row id than, any
create in the second position. -/
def opsOrdered (a b : Op) : Bool :=
  (match opCreateStart a, opCreateStart b with
   | some sa, some sb => decide (sa < sb)
   | _, _ => true) &&
  (match opCreateId a, opCreateId b with
   | some ia, some ib => ia != ib
   | _, _ => true)

/-- Store states produced by in-order creates and deletes: every stored
record has an explicit positive duration, row ids are unique, and every
enrollment is reconciled. -/
def GoodStore (st : Store) : Prop :=
  (∀ r ∈ st.records, ∃ d, r.sessionDurationMinutes = some d ∧ 1 ≤ d) ∧
  (st.records.map (fun r => r.id)).Nodup ∧
  (∀ eid, reconciledB st eid = true)

/-- Pending operations are in the future of every stored record: later
creates have strictly greater start times and fresh row ids. -/
def OpsFresh (st : Store) (ops : List Op) : Prop :=
  ∀ r ∈ st.records, ∀ op ∈ ops,
    (∀ s ∈ opCreateStart op, r.sessionStartTime < s) ∧
    (∀ i ∈ opCreateId op, r.id ≠ i)

/-- Enrollment states reachable through admin creation of a fresh assignment
(`status = assigned`, progress 0, no timestamps) followed by learner-initiated
operations only: the learner branch of the enrollment PUT, and the enrollment
progress propagation of learning-record create and update. -/
inductive LearnerReach : Enrollment → Prop where
  | created : ∀ (eid lid cid : Nat) (dd : Option Int),
      LearnerReach ⟨eid, lid, cid, .assigned, 0, none, none, dd⟩
  | enrollmentPut : ∀ {e : Enrollment} (u : EnrollmentUpdateInput) (now : Int),
      LearnerReach e → LearnerReach (learnerEnrollmentUpdate e u now)
  | recordCreated : ∀ {e : Enrollment} (p now : Int),
      LearnerReach e → LearnerReach (applyProgressOnCreate e p now)
  | recordUpdated : ∀ {e : Enrollment} (p now : Int),
      LearnerReach e → LearnerReach (applyProgressOnUpdate e p now)

/-- The completion-timestamp half of the completion invariant. -/
def completedOk (e : Enrollment) : Prop :=
  e.status = .completed → e.completedAt ≠ none

end LMS

namespace LMS

/-! ## Helper lemmas -/

theorem find?_filter_of_imp {α : Type} (p q : α → Bool) (l : List α)
    (h : ∀ a, p a = true → q a = true) :
    (l.filter q).find? p = l.find? p := by
  induction l with
  | nil => rfl
  | cons a l ih =>
    by_cases hq : q a = true
    · by_cases hp : p a = true
      · simp [List.filter_cons, hq, List.find?_cons, hp]
      · simp [List.filter_cons, hq, List.find?_cons, hp, ih]
    · have hp : p a = false := by
        cases hpa : p a
        · rfl
        · exact absurd (h a hpa) hq
      simp [List.filter_cons, hq, List.find?_cons, hp, ih]

theorem sum_filter_isSome (l : List LearningRecord) :
    ((l.filter (fun r => r.sessionDurationMinutes.isSome)).map
      (fun r => r.sessionDurationMinutes.getD 0)).sum = sumDur l := by
  induction l with
  | nil => rfl
  | cons a l ih =>
    by_cases h : a.sessionDurationMinutes.isSome = true
    · simp [sumDur, List.filter_cons, h] at ih ⊢
      omega
    · have ha : a.sessionDurationMinutes = none := by
        cases hx : a.sessionDurationMinutes
        · rfl
        · rw [hx] at h; simp at h
      simp [sumDur, List.filter_cons, h, ha] at ih ⊢
      omega

theorem applyProgressOnCreate_completedOk (e : Enrollment) (p now : Int)
    (h : completedOk e) : completedOk (applyProgressOnCreate e p now) := by
  intro hc
  by_cases hp : (p == (100 : Int)) = true
  · simp [applyProgressOnCreate, hp]
  · by_cases ha : (e.status == EStatus.assigned) = true
    · simp [applyProgressOnCreate, hp, ha] at hc
    · simp [applyProgressOnCreate, hp, ha] at hc ⊢
      exact h hc

theorem applyProgressOnUpdate_completedOk (e : Enrollment) (p now : Int)
    (h : completedOk e) : completedOk (applyProgressOnUpdate e p now) := by
  intro hc
  by_cases hp : (p == (100 : Int)) = true
  · simp [applyProgressOnUpdate, hp]
  · simp [applyProgressOnUpdate, hp] at hc ⊢
    exact h hc

theorem learnerEnrollmentUpdate_completedOk (e : Enrollment)
    (u : EnrollmentUpdateInput) (now : Int)
    (h : completedOk e) : completedOk (learnerEnrollmentUpdate e u now) := by
  intro hc
  by_cases hd4 : (u.completedAt.isSome && u.progressPercentage == some (100 : Int)) = true
  · have hs : u.completedAt.isSome = true := by
      simp only [Bool.and_eq_true] at hd4
      exact hd4.1
    simp [learnerEnrollmentUpdate, hd4]
    exact Option.isSome_iff_ne_none.mp hs
  · by_cases hd3 : (u.startedAt.isSome && e.status == EStatus.assigned) = true
    · simp [learnerEnrollmentUpdate, hd4, hd3] at hc
    · cases hus : u.status with
      | none =>
        simp [learnerEnrollmentUpdate, hd4, hd3, hus] at hc ⊢
        exact h hc
      | some s =>
        by_cases hb1 : (e.status == EStatus.assigned && s == EStatus.inProgress) = true
        · have hb1' := hb1
          simp only [Bool.and_eq_true] at hb1'
          have hea : (e.status == EStatus.assigned) = true := hb1'.1
          have hsi : s = EStatus.inProgress := by simpa using hb1'.2
          have hsa : u.startedAt.isSome = false := by
            cases hsa' : u.startedAt.isSome
            · rfl
            · exact absurd (by simp [hsa', hea]) hd3
          simp [learnerEnrollmentUpdate, hd4, hd3, hus, hea, hsi, hsa] at hc
        · by_cases hb2 : (e.status == EStatus.inProgress && s == EStatus.completed &&
              (u.progressPercentage == some (100 : Int) || e.progressPercentage == (100 : Int))) = true
          · simp [learnerEnrollmentUpdate, hd4, hd3, hus, hb1, hb2]
          · simp [learnerEnrollmentUpdate, hd4, hd3, hus, hb1, hb2] at hc ⊢
            exact h hc

/-! ## C9 -/

/-- C9: an unauthenticated caller (no session) is denied by both
`canAccessResource` and `canAccessCourse`, for every resource owner id,
course id and enrollment table — fail-closed before any role or ownership
comparison, and total (no exception). -/
theorem c9_unauthenticated_fail_closed (resourceUserId courseId : Nat)
    (enrollments : List Enrollment) :
    canAccessResource none resourceUserId = false ∧
    canAccessCourse none courseId enrollments = false :=
  ⟨rfl, rfl⟩

/-! ## C10 -/

/-- C10: for a learner session, the enrollment GET response is a function of
the learner's own enrollments only (filtering the table to the learner's own
rows does not change the result), and when the learner owns no enrollment
with the requested id the result is `notFound` — exactly the result for a
nonexistent id. -/
theorem c10_learner_get_owner_scoped (st : Store) (sess : Session) (eid : Nat)
    (hrole : sess.role = .learner) :
    getEnrollment st sess eid =
      getEnrollment
        { st with enrollments := st.enrollments.filter (fun e => e.learnerId == sess.userId) }
        sess eid ∧
    ((∀ e ∈ st.enrollments, e.id = eid → e.learnerId ≠ sess.userId) →
      getEnrollment st sess eid = .error .notFound) := by
  have hadm : isAdmin sess = false := by simp [isAdmin, hrole]
  constructor
  · unfold getEnrollment
    rw [find?_filter_of_imp]
    intro a ha
    rw [hadm] at ha
    simp at ha
    simp [ha.2]
  · intro h
    unfold getEnrollment
    have hn : st.enrollments.find?
        (fun e => e.id == eid && (isAdmin sess || e.learnerId == sess.userId)) = none := by
      rw [List.find?_eq_none]
      intro a ha
      rw [hadm]
      simp
      intro hid
      exact h a ha hid
    rw [hn]

/-- Witness for C10 at a concrete store: a learner who does not own the only
enrollment with the requested id gets `notFound`. -/
theorem c10_witness :
    getEnrollment ⟨[⟨1, 7, 2, .assigned, 0, none, none, none⟩], [], []⟩ ⟨5, .learner⟩ 1 =
      .error .notFound :=
  (c10_learner_get_owner_scoped _ _ _ rfl).2 (by decide)

/-! ## C8 -/

/-- C8 counterexample: on an `assigned` enrollment with progress 40, the
enrollment update performed by learning-record create differs from the one
performed by learning-record update (create transitions to `in_progress` and
sets `startedAt`; update does neither). -/
theorem c8_counterexample :
    applyProgressOnCreate ⟨1, 10, 20, .assigned, 0, none, none, none⟩ 40 5 ≠
      applyProgressOnUpdate ⟨1, 10, 20, .assigned, 0, none, none, none⟩ 40 5 := by
  decide

/-- C8 amended: whenever the enrollment is not in status `assigned`, the
enrollment update performed by learning-record update for a given progress
percentage is identical to the one performed by learning-record create. -/
theorem c8_update_propagation_matches_create (e : Enrollment) (p now : Int)
    (h : e.status ≠ .assigned) :
    applyProgressOnCreate e p now = applyProgressOnUpdate e p now := by
  have hb : (e.status == EStatus.assigned) = false := by simp [h]
  simp [applyProgressOnCreate, applyProgressOnUpdate, hb]

/-- Witness for the amended C8 on an `in_progress` enrollment. -/
theorem c8_witness :
    applyProgressOnCreate ⟨1, 10, 20, .inProgress, 10, some 3, none, none⟩ 40 5 =
      applyProgressOnUpdate ⟨1, 10, 20, .inProgress, 10, some 3, none, none⟩ 40 5 :=
  c8_update_propagation_matches_create _ 40 5 (by decide)

/-! ## C2 -/

/-- C2 counterexample: a learner requesting `completed` (with progress 100)
on their own `assigned` enrollment is *not* rejected: the request succeeds
(`some _`, not an error), the status silently stays `assigned`, and the
progress write is applied (0 → 100), so the enrollment is changed. -/
theorem c2_counterexample :
    resultStatus (updateEnrollment ⟨[⟨1, 10, 20, .assigned, 0, none, none, none⟩], [], []⟩
        ⟨10, .learner⟩ 1 ⟨some 100, some .completed, none, none, none⟩ 5) = some .assigned ∧
    resultProgress (updateEnrollment ⟨[⟨1, 10, 20, .assigned, 0, none, none, none⟩], [], []⟩
        ⟨10, .learner⟩ 1 ⟨some 100, some .completed, none, none, none⟩ 5) = some 100 := by
  decide

/-- C2 amended: a learner's requested `assigned → completed` jump (without a
`completed_at` or `started_at` field in the body) is silently dropped rather
than rejected: the operation succeeds, the status remains `assigned`, the
timestamps are untouched, but a supplied progress value is applied. -/
theorem c2_assigned_to_completed_silently_dropped
    (st : Store) (sess : Session) (eid : Nat) (e : Enrollment)
    (u : EnrollmentUpdateInput) (now : Int)
    (hrole : sess.role = .learner)
    (hfind : st.enrollments.find? (fun x => x.id == eid) = some e)
    (hown : e.learnerId = sess.userId)
    (hst : e.status = .assigned)
    (hs : u.status = some .completed)
    (hsa : u.startedAt = none) (hca : u.completedAt = none) :
    updateEnrollment st sess eid u now =
      .ok (learnerEnrollmentUpdate e u now, putEnrollment st (learnerEnrollmentUpdate e u now)) ∧
    (learnerEnrollmentUpdate e u now).status = .assigned ∧
    (learnerEnrollmentUpdate e u now).progressPercentage =
      u.progressPercentage.getD e.progressPercentage ∧
    (learnerEnrollmentUpdate e u now).startedAt = e.startedAt ∧
    (learnerEnrollmentUpdate e u now).completedAt = e.completedAt := by
  have hadm : isAdmin sess = false := by simp [isAdmin, hrole]
  have hred : learnerEnrollmentUpdate e u now =
      { e with progressPercentage := u.progressPercentage.getD e.progressPercentage } := by
    simp [learnerEnrollmentUpdate, hs, hst, hsa, hca]
  refine ⟨?_, ?_, ?_, ?_, ?_⟩
  · simp [updateEnrollment, hfind, hadm, hown]
  · rw [hred]; exact hst
  · rw [hred]
  · rw [hred]
  · rw [hred]

/-- Witness for the amended C2 at a concrete enrollment. -/
theorem c2_witness :
    updateEnrollment ⟨[⟨1, 10, 20, .assigned, 0, none, none, none⟩], [], []⟩
        ⟨10, .learner⟩ 1 ⟨some 100, some .completed, none, none, none⟩ 5 =
      .ok (learnerEnrollmentUpdate ⟨1, 10, 20, .assigned, 0, none, none, none⟩
            ⟨some 100, some .completed, none, none, none⟩ 5,
          putEnrollment ⟨[⟨1, 10, 20, .assigned, 0, none, none, none⟩], [], []⟩
            (learnerEnrollmentUpdate ⟨1, 10, 20, .assigned, 0, none, none, none⟩
              ⟨some 100, some .completed, none, none, none⟩ 5)) ∧
    (learnerEnrollmentUpdate ⟨1, 10, 20, .assigned, 0, none, none, none⟩
        ⟨some 100, some .completed, none, none, none⟩ 5).status = .assigned ∧
    (learnerEnrollmentUpdate ⟨1, 10, 20, .assigned, 0, none, none, none⟩
        ⟨some 100, some .completed, none, none, none⟩ 5).progressPercentage =
      (some (100 : Int)).getD 0 ∧
    (learnerEnrollmentUpdate ⟨1, 10, 20, .assigned, 0, none, none, none⟩
        ⟨some 100, some .completed, none, none, none⟩ 5).startedAt = none ∧
    (learnerEnrollmentUpdate ⟨1, 10, 20, .assigned, 0, none, none, none⟩
        ⟨some 100, some .completed, none, none, none⟩ 5).completedAt = none :=
  c2_assigned_to_completed_silently_dropped _ _ _ _ _ _ rfl rfl rfl rfl rfl rfl rfl

/-! ## C7 -/

/-- C7 counterexample: a learner moves their *cancelled* enrollment to
`completed` by sending `completed_at` together with progress 100 — the
`cancelled` state is not terminal under learner-initiated operations. -/
theorem c7_counterexample :
    resultStatus (updateEnrollment ⟨[⟨1, 10, 20, .cancelled, 30, none, none, none⟩], [], []⟩
        ⟨10, .learner⟩ 1 ⟨some 100, none, none, none, some 999⟩ 5) = some .completed := by
  decide

/-- C7 amended: `completed` is terminal under learner-initiated operations —
the learner branch of the enrollment PUT and the progress propagation of
learning-record create/update never change a `completed` status — and a
`cancelled` enrollment rejects learning-record creation; but `cancelled` is
not terminal (see the counterexample). -/
theorem c7_completed_terminal (e : Enrollment) (u : EnrollmentUpdateInput)
    (p now np nu : Int) (h : e.status = .completed) :
    (learnerEnrollmentUpdate e u now).status = .completed ∧
    (applyProgressOnCreate e p np).status = .completed ∧
    (applyProgressOnUpdate e p nu).status = .completed := by
  have h1 : (e.status == EStatus.assigned) = false := by simp [h]
  have h2 : (e.status == EStatus.inProgress) = false := by simp [h]
  refine ⟨?_, ?_, ?_⟩
  · cases hus : u.status with
    | none =>
      simp [learnerEnrollmentUpdate, hus, h1, h2, h]
      split <;> simp [h]
    | some s =>
      simp [learnerEnrollmentUpdate, hus, h1, h2, h]
      split <;> simp [h]
  · simp [applyProgressOnCreate, h1]
    split <;> simp [h]
  · simp [applyProgressOnUpdate]
    split <;> simp [h]

/-- Witness for the amended C7 on a concrete completed enrollment. -/
theorem c7_witness :
    (learnerEnrollmentUpdate ⟨1, 10, 20, .completed, 100, some 1, some 2, none⟩
        ⟨some 50, some .assigned, none, none, none⟩ 5).status = .completed ∧
    (applyProgressOnCreate ⟨1, 10, 20, .completed, 100, some 1, some 2, none⟩ 50 6).status =
      .completed ∧
    (applyProgressOnUpdate ⟨1, 10, 20, .completed, 100, some 1, some 2, none⟩ 50 7).status =
      .completed :=
  c7_completed_terminal _ _ _ _ _ _ rfl

/-! ## C3 -/

/-- C3 counterexample: an admin sets `status = completed` on an `assigned`
enrollment without supplying progress or `completed_at`; the handler accepts
it, leaving `progressPercentage = 0` and `completedAt = null` on a
`completed` enrollment — both conjuncts of the claimed invariant fail. -/
theorem c3_counterexample :
    resultStatus (updateEnrollment ⟨[⟨1, 10, 20, .assigned, 0, none, none, none⟩], [], []⟩
        ⟨99, .admin⟩ 1 ⟨none, some .completed, none, none, none⟩ 5) = some .completed ∧
    resultProgress (updateEnrollment ⟨[⟨1, 10, 20, .assigned, 0, none, none, none⟩], [], []⟩
        ⟨99, .admin⟩ 1 ⟨none, some .completed, none, none, none⟩ 5) = some 0 ∧
    resultCompletedAt (updateEnrollment ⟨[⟨1, 10, 20, .assigned, 0, none, none, none⟩], [], []⟩
        ⟨99, .admin⟩ 1 ⟨none, some .completed, none, none, none⟩ 5) = some none := by
  decide

/-- C3 amended: for enrollments reachable from a fresh assignment through
learner-initiated operations only (learner enrollment PUT, learning-record
create/update progress propagation), `status = completed` implies
`completedAt ≠ null`. The `progressPercentage = 100` conjunct and the
admin paths fail (see the counterexample). -/
theorem c3_learner_completed_has_timestamp (e : Enrollment)
    (h : LearnerReach e) : completedOk e := by
  induction h with
  | created eid lid cid dd => intro hc; simp at hc
  | enrollmentPut u now _ ih => exact learnerEnrollmentUpdate_completedOk _ u now ih
  | recordCreated p now _ ih => exact applyProgressOnCreate_completedOk _ p now ih
  | recordUpdated p now _ ih => exact applyProgressOnUpdate_completedOk _ p now ih

/-- Witness for the amended C3: a freshly assigned enrollment brought to
completion by a 100% learning-record create satisfies the invariant. -/
theorem c3_witness :
    applyProgressOnCreate ⟨1, 10, 20, .assigned, 0, none, none, none⟩ 100 5 =
      applyProgressOnCreate ⟨1, 10, 20, .assigned, 0, none, none, none⟩ 100 5 ∧
    completedOk (applyProgressOnCreate ⟨1, 10, 20, .assigned, 0, none, none, none⟩ 100 5) :=
  ⟨rfl, c3_learner_completed_has_timestamp _
    (LearnerReach.recordCreated 100 5 (LearnerReach.created 1 10 20 none))⟩

/-! ## C6 -/

/-- C6: the failing input for the negative-duration claim. With no explicit
duration and `session_end_time` two hours *before* `session_start_time`, the
create handler derives `round((end − start)/60000) = −120`, does not fail,
and stores the negative duration and a negative cumulative total. -/
theorem c6_negative_derived_duration_written :
    (createdRecord (createLearningRecord
        ⟨[⟨1, 10, 20, .assigned, 0, none, none, none⟩], [⟨20, true⟩], []⟩
        ⟨10, .learner⟩
        ⟨1, 20, 10, 10000000, some 2800000, none, none⟩ 101 10000500)).map
      (fun r => (r.sessionDurationMinutes, r.cumulativeLearningMinutes)) =
      some (some (-120), -120) := by
  decide

/-! ## C4 -/

/-- C4: on every successful learning-record create, the cumulative total
written on the new record equals the sum of the session durations of all
previously existing records of the same enrollment (absent durations
contributing 0) plus the new record's own stored session duration. -/
theorem c4_create_cumulative_running_total
    (st : Store) (sess : Session) (inp : RecordCreateInput) (newId : Nat) (now : Int)
    (r : LearningRecord) (st' : Store)
    (h : createLearningRecord st sess inp newId now = .ok (r, st')) :
    r.cumulativeLearningMinutes =
      sumDur (recordsOf st inp.enrollmentId) + r.sessionDurationMinutes.getD 0 := by
  unfold createLearningRecord at h
  split at h
  · simp at h
  · split at h
    · simp at h
    · split at h
      · simp at h
      · split at h
        · simp at h
        · split at h
          · simp at h
          · simp only [Except.ok.injEq, Prod.mk.injEq] at h
            obtain ⟨hr, _⟩ := h
            rw [← hr]
            simp only
            rw [sum_filter_isSome (recordsOf st inp.enrollmentId)]

/-- Witness for C4 at a concrete store with one prior record. -/
theorem c4_witness :
    (30 : Int) =
      sumDur (recordsOf ⟨[⟨1, 10, 20, .assigned, 0, none, none, none⟩], [⟨20, true⟩],
          [⟨50, 1, 20, 10, 1000, none, some 10, 0, none, 10, 0⟩]⟩ 1) +
        (some (20 : Int)).getD 0 := by
  have h := c4_create_cumulative_running_total
    ⟨[⟨1, 10, 20, .assigned, 0, none, none, none⟩], [⟨20, true⟩],
      [⟨50, 1, 20, 10, 1000, none, some 10, 0, none, 10, 0⟩]⟩
    ⟨10, .learner⟩ ⟨1, 20, 10, 2000, none, some 20, none⟩ 51 7
    ⟨51, 1, 20, 10, 2000, none, some 20, 0, none, 30, 7⟩
    ⟨[⟨1, 10, 20, .assigned, 0, none, none, none⟩], [⟨20, true⟩],
      [⟨50, 1, 20, 10, 1000, none, some 10, 0, none, 10, 0⟩,
       ⟨51, 1, 20, 10, 2000, none, some 20, 0, none, 30, 7⟩]⟩
    (by rfl)
  exact h

/-! ## C5 -/

/-- C5: a learning record whose creation date differs from the current date
cannot be updated or deleted by its owning learner — both operations fail
with the stale-window error and leave the store unchanged — while an admin
performing the same update and delete succeeds. -/
theorem c5_stale_window_learner_blocked_admin_exempt
    (st : Store) (sessL sessA : Session) (rid : Nat) (r : LearningRecord)
    (patch : RecordUpdateInput) (now : Int)
    (hfind : st.records.find? (fun x => x.id == rid) = some r)
    (hrole : sessL.role = .learner) (hown : r.learnerId = sessL.userId)
    (hdate : dateOfMs r.createdAt ≠ dateOfMs now)
    (hadm : sessA.role = .admin) :
    updateLearningRecord st sessL rid patch now = .error .staleEditWindow ∧
    deleteLearningRecord st sessL rid now = .error .staleEditWindow ∧
    runOp sessL st (.update rid patch now) = st ∧
    runOp sessL st (.delete rid now) = st ∧
    exceptOk (updateLearningRecord st sessA rid patch now) = true ∧
    exceptOk (deleteLearningRecord st sessA rid now) = true := by
  have hL : isAdmin sessL = false := by simp [isAdmin, hrole]
  have hA : isAdmin sessA = true := by simp [isAdmin, hadm]
  have h1 : updateLearningRecord st sessL rid patch now = .error .staleEditWindow := by
    simp [updateLearningRecord, hfind, hL, hown, hdate]
  have h2 : deleteLearningRecord st sessL rid now = .error .staleEditWindow := by
    simp [deleteLearningRecord, hfind, hL, hown, hdate]
  refine ⟨h1, h2, ?_, ?_, ?_, ?_⟩
  · simp [runOp, h1]
  · simp [runOp, h2]
  · simp only [updateLearningRecord, hfind, hA, Bool.not_true, Bool.false_and]
    simp [exceptOk]
  · simp only [deleteLearningRecord, hfind, hA, Bool.not_true, Bool.false_and]
    simp only [Bool.false_eq_true, if_false]
    split
    · split
      · split <;> rfl
      · rfl
    · rfl

/-- Witness for C5: a record created on day 0, edited on day 1. -/
theorem c5_witness :
    updateLearningRecord ⟨[], [], [⟨50, 1, 20, 10, 1000, none, some 30, 0, none, 30, 0⟩]⟩
        ⟨10, .learner⟩ 50 ⟨none, some 40, none⟩ 86400005 = .error .staleEditWindow ∧
    deleteLearningRecord ⟨[], [], [⟨50, 1, 20, 10, 1000, none, some 30, 0, none, 30, 0⟩]⟩
        ⟨10, .learner⟩ 50 86400005 = .error .staleEditWindow ∧
    runOp ⟨10, .learner⟩ ⟨[], [], [⟨50, 1, 20, 10, 1000, none, some 30, 0, none, 30, 0⟩]⟩
        (.update 50 ⟨none, some 40, none⟩ 86400005) =
      ⟨[], [], [⟨50, 1, 20, 10, 1000, none, some 30, 0, none, 30, 0⟩]⟩ ∧
    runOp ⟨10, .learner⟩ ⟨[], [], [⟨50, 1, 20, 10, 1000, none, some 30, 0, none, 30, 0⟩]⟩
        (.delete 50 86400005) =
      ⟨[], [], [⟨50, 1, 20, 10, 1000, none, some 30, 0, none, 30, 0⟩]⟩ ∧
    exceptOk (updateLearningRecord ⟨[], [], [⟨50, 1, 20, 10, 1000, none, some 30, 0, none, 30, 0⟩]⟩
        ⟨99, .admin⟩ 50 ⟨none, some 40, none⟩ 86400005) = true ∧
    exceptOk (deleteLearningRecord ⟨[], [], [⟨50, 1, 20, 10, 1000, none, some 30, 0, none, 30, 0⟩]⟩
        ⟨99, .admin⟩ 50 86400005) = true :=
  c5_stale_window_learner_blocked_admin_exempt
    ⟨[], [], [⟨50, 1, 20, 10, 1000, none, some 30, 0, none, 30, 0⟩]⟩
    ⟨10, .learner⟩ ⟨99, .admin⟩ 50
    ⟨50, 1, 20, 10, 1000, none, some 30, 0, none, 30, 0⟩
    ⟨none, some 40, none⟩ 86400005
    (by decide) rfl rfl (by decide) rfl

/-! ## C1: lemmas about the latest-record selection -/

theorem laterOf_mem (l : List LearningRecord) :
    ∀ (acc : Option LearningRecord) (m : LearningRecord),
      l.foldl laterOf acc = some m → m ∈ l ∨ acc = some m := by
  induction l with
  | nil => intro acc m h; exact Or.inr h
  | cons a l ih =>
    intro acc m h
    rw [List.foldl_cons] at h
    rcases ih (laterOf acc a) m h with hm | hacc
    · exact Or.inl (List.mem_cons_of_mem _ hm)
    · cases acc with
      | none =>
        have : a = m := by simpa [laterOf] using hacc
        exact Or.inl (this ▸ List.mem_cons_self a l)
      | some b =>
        by_cases hgt : a.sessionStartTime > b.sessionStartTime
        · have : a = m := by simpa [laterOf, hgt] using hacc
          exact Or.inl (this ▸ List.mem_cons_self a l)
        · have : b = m := by simpa [laterOf, hgt] using hacc
          exact Or.inr (by rw [this])

theorem latestOf_append_gt (l : List LearningRecord) (x : LearningRecord)
    (h : ∀ r ∈ l, r.sessionStartTime < x.sessionStartTime) :
    latestOf (l ++ [x]) = some x := by
  unfold latestOf
  rw [List.foldl_append, List.foldl_cons, List.foldl_nil]
  cases hm : l.foldl laterOf none with
  | none => rfl
  | some m =>
    rcases laterOf_mem l none m hm with hmem | habs
    · have hlt := h m hmem
      simp [laterOf, hlt]
    · exact absurd habs (by simp)

theorem latestOf_map_preserve (f : LearningRecord → LearningRecord)
    (hf : ∀ r, (f r).sessionStartTime = r.sessionStartTime) (l : List LearningRecord) :
    latestOf (l.map f) = (latestOf l).map f := by
  unfold latestOf
  suffices hgen : ∀ acc : Option LearningRecord,
      (l.map f).foldl laterOf (Option.map f acc) = Option.map f (l.foldl laterOf acc) by
    simpa using hgen none
  induction l with
  | nil => intro acc; simp
  | cons a l ih =>
    intro acc
    simp only [List.map_cons, List.foldl_cons]
    have hstep : laterOf (Option.map f acc) (f a) = Option.map f (laterOf acc a) := by
      cases acc with
      | none => simp [laterOf]
      | some b =>
        by_cases hgt : a.sessionStartTime > b.sessionStartTime
        · simp [laterOf, hf, hgt]
        · simp [laterOf, hf, hgt]
    rw [hstep, ih]

theorem foldl_laterOf_some (l : List LearningRecord) :
    ∀ b : LearningRecord, ∃ m, l.foldl laterOf (some b) = some m := by
  induction l with
  | nil => intro b; exact ⟨b, rfl⟩
  | cons a l ih =>
    intro b
    rw [List.foldl_cons]
    by_cases hgt : a.sessionStartTime > b.sessionStartTime
    · simpa [laterOf, hgt] using ih a
    · simpa [laterOf, hgt] using ih b

theorem latestOf_of_ne_nil (l : List LearningRecord) (h : l ≠ []) :
    ∃ m, latestOf l = some m := by
  cases l with
  | nil => exact absurd rfl h
  | cons a l =>
    unfold latestOf
    rw [List.foldl_cons]
    exact foldl_laterOf_some l a

/-! ## C1: the create path -/

theorem create_ok_shape
    (st : Store) (sess : Session) (inp : RecordCreateInput) (nid : Nat) (now : Int)
    (r : LearningRecord) (st' : Store)
    (h : createLearningRecord st sess inp nid now = .ok (r, st')) :
    st'.records = st.records ++ [r] ∧
    r.id = nid ∧
    r.enrollmentId = inp.enrollmentId ∧
    r.sessionStartTime = inp.sessionStartTime ∧
    r.sessionDurationMinutes =
      (if !truthy inp.sessionDurationMinutes && inp.sessionEndTime.isSome then
        some (jsRoundMinutes inp.sessionStartTime (inp.sessionEndTime.getD 0))
      else inp.sessionDurationMinutes) ∧
    r.cumulativeLearningMinutes =
      totalNonNull (recordsOf st inp.enrollmentId) + r.sessionDurationMinutes.getD 0 := by
  unfold createLearningRecord at h
  split at h
  · simp at h
  · split at h
    · simp at h
    · split at h
      · simp at h
      · split at h
        · simp at h
        · split at h
          · simp at h
          · simp only [Except.ok.injEq, Prod.mk.injEq] at h
            obtain ⟨hr, hst⟩ := h
            subst hr
            refine ⟨?_, rfl, rfl, rfl, rfl, rfl⟩
            rw [← hst]
            cases hp : inp.progressPercentage <;> simp [putEnrollment]

theorem create_preserves
    (st : Store) (sess : Session) (inp : RecordCreateInput) (nid : Nat) (now : Int)
    (r : LearningRecord) (st' : Store) (d : Int)
    (hg : GoodStore st)
    (hd : inp.sessionDurationMinutes = some d) (hd1 : 1 ≤ d)
    (hfresh : ∀ x ∈ st.records, x.sessionStartTime < inp.sessionStartTime ∧ x.id ≠ nid)
    (h : createLearningRecord st sess inp nid now = .ok (r, st')) :
    GoodStore st' ∧ st'.records = st.records ++ [r] ∧
    r.id = nid ∧ r.sessionStartTime = inp.sessionStartTime := by
  obtain ⟨hrecs, hid, heid, hstart, hdur, hcum⟩ := create_ok_shape st sess inp nid now r st' h
  have htr : truthy inp.sessionDurationMinutes = true := by
    rw [hd]
    simp [truthy]
    omega
  rw [htr] at hdur
  simp only [Bool.not_true, Bool.false_and, Bool.false_eq_true, if_false] at hdur
  rw [hd] at hdur
  obtain ⟨hgA, hgB, hgC⟩ := hg
  refine ⟨⟨?_, ?_, ?_⟩, hrecs, hid, hstart⟩
  · intro x hx
    rw [hrecs] at hx
    rcases List.mem_append.mp hx with hx | hx
    · exact hgA x hx
    · have hxr : x = r := by simpa using hx
      exact ⟨d, by rw [hxr, hdur], hd1⟩
  · rw [hrecs]
    simp only [List.map_append, List.map_cons, List.map_nil]
    rw [List.nodup_append]
    refine ⟨hgB, List.nodup_singleton _, ?_⟩
    intro a ha hb
    have hab : a = r.id := by simpa using hb
    subst hab
    obtain ⟨x, hx, hxid⟩ := List.mem_map.mp ha
    exact (hfresh x hx).2 (hxid.trans hid)
  · intro eid
    by_cases he : r.enrollmentId = eid
    · have hfilter : recordsOf st' eid = recordsOf st eid ++ [r] := by
        simp [recordsOf, hrecs, List.filter_append, he]
      have hlatest : latestOf (recordsOf st eid ++ [r]) = some r := by
        apply latestOf_append_gt
        intro x hx
        have hxm : x ∈ st.records := List.mem_of_mem_filter hx
        rw [hstart]
        exact (hfresh x hxm).1
      unfold reconciledB
      rw [hfilter, hlatest]
      have hsum : sumDur (recordsOf st eid ++ [r]) =
          sumDur (recordsOf st eid) + r.sessionDurationMinutes.getD 0 := by
        simp [sumDur]
      rw [hsum]
      show (r.cumulativeLearningMinutes ==
        sumDur (recordsOf st eid) + r.sessionDurationMinutes.getD 0) = true
      have htot : totalNonNull (recordsOf st inp.enrollmentId) =
          sumDur (recordsOf st inp.enrollmentId) := by
        unfold totalNonNull
        exact sum_filter_isSome (recordsOf st inp.enrollmentId)
      have hie : inp.enrollmentId = eid := heid.symm.trans he
      rw [hcum, htot, hie]
      simp
    · have hfilter : recordsOf st' eid = recordsOf st eid := by
        simp [recordsOf, hrecs, List.filter_append, he]
      have hsame : reconciledB st' eid = reconciledB st eid := by
        unfold reconciledB
        rw [hfilter]
      rw [hsame]
      exact hgC eid

/-! ## C1: the delete path -/

theorem recordsOf_mk (E : List Enrollment) (C : List Course)
    (recs : List LearningRecord) (eid : Nat) :
    recordsOf ⟨E, C, recs⟩ eid = recs.filter (fun x => x.enrollmentId == eid) := rfl

theorem reconciledB_congr (st₁ st₂ : Store) (eid : Nat)
    (h : recordsOf st₁ eid = recordsOf st₂ eid) :
    reconciledB st₁ eid = reconciledB st₂ eid := by
  unfold reconciledB
  rw [h]

theorem remaining_eq_filter (st : Store) (rid : Nat) (eidr : Nat)
    (hgA : ∀ x ∈ st.records, ∃ d, x.sessionDurationMinutes = some d ∧ 1 ≤ d) :
    (st.records.filter (fun x => x.id != rid)).filter
        (fun x => x.enrollmentId == eidr && x.sessionDurationMinutes.isSome) =
      (st.records.filter (fun x => x.id != rid)).filter (fun x => x.enrollmentId == eidr) := by
  apply List.filter_congr
  intro x hx
  obtain ⟨d, hd, _⟩ := hgA x (List.mem_of_mem_filter hx)
  rw [hd]
  simp

theorem filter_erase_other (st : Store) (rid : Nat) (r : LearningRecord) (eid : Nat)
    (hgB : (st.records.map (fun x => x.id)).Nodup)
    (hrmem : r ∈ st.records) (hrid : r.id = rid) (hne : eid ≠ r.enrollmentId) :
    (st.records.filter (fun x => x.id != rid)).filter (fun x => x.enrollmentId == eid) =
      st.records.filter (fun x => x.enrollmentId == eid) := by
  rw [List.filter_filter]
  apply List.filter_congr
  intro x hx
  by_cases hxe : (x.enrollmentId == eid) = true
  · have hxeid : x.enrollmentId = eid := by simpa using hxe
    have hidne : x.id ≠ rid := by
      intro hcontra
      have hxr : x = r := List.inj_on_of_nodup_map hgB hx hrmem (hcontra.trans hrid.symm)
      rw [hxr] at hxeid
      exact hne hxeid.symm
    simp [hxe, hidne]
  · simp [hxe]

theorem delete_good_empty (st : Store) (rid : Nat) (r : LearningRecord)
    (hgA : ∀ x ∈ st.records, ∃ d, x.sessionDurationMinutes = some d ∧ 1 ≤ d)
    (hgB : (st.records.map (fun x => x.id)).Nodup)
    (hgC : ∀ eid, reconciledB st eid = true)
    (hrmem : r ∈ st.records) (hrid : r.id = rid)
    (hrem : (st.records.filter (fun x => x.id != rid)).filter
        (fun x => x.enrollmentId == r.enrollmentId && x.sessionDurationMinutes.isSome) = []) :
    GoodStore { st with records := st.records.filter (fun x => x.id != rid) } := by
  have hsubl : (st.records.filter (fun x => x.id != rid)).Sublist st.records :=
    List.filter_sublist _
  refine ⟨?_, ?_, ?_⟩
  · intro x hx
    exact hgA x (List.mem_of_mem_filter hx)
  · exact (hsubl.map _).nodup hgB
  · intro eid
    by_cases he : eid = r.enrollmentId
    · subst he
      rw [remaining_eq_filter st rid r.enrollmentId hgA] at hrem
      have hrec : recordsOf { st with records := st.records.filter (fun x => x.id != rid) }
          r.enrollmentId = [] := by
        rw [recordsOf_mk]
        exact hrem
      unfold reconciledB
      rw [hrec]
      rfl
    · have hrec : recordsOf { st with records := st.records.filter (fun x => x.id != rid) } eid
          = recordsOf st eid := by
        rw [recordsOf_mk]
        exact filter_erase_other st rid r eid hgB hrmem hrid he
      rw [reconciledB_congr _ st eid hrec]
      exact hgC eid

theorem delete_good_nonempty (st : Store) (rid : Nat) (r latest : LearningRecord)
    (hgA : ∀ x ∈ st.records, ∃ d, x.sessionDurationMinutes = some d ∧ 1 ≤ d)
    (hgB : (st.records.map (fun x => x.id)).Nodup)
    (hgC : ∀ eid, reconciledB st eid = true)
    (hrmem : r ∈ st.records) (hrid : r.id = rid)
    (hlat : latestOf ((st.records.filter (fun x => x.id != rid)).filter
        (fun x => x.enrollmentId == r.enrollmentId)) = some latest) :
    GoodStore
      { st with
        records :=
          (st.records.filter (fun x => x.id != rid)).map
            (fun x => if x.id == latest.id then
              { x with cumulativeLearningMinutes :=
                  (((st.records.filter (fun x => x.id != rid)).filter
                      (fun x => x.enrollmentId == r.enrollmentId &&
                        x.sessionDurationMinutes.isSome)).map
                    (fun x => x.sessionDurationMinutes.getD 0)).sum }
              else x) } := by
  set l1 := st.records.filter (fun x => x.id != rid) with hl1
  set nc := ((l1.filter (fun x => x.enrollmentId == r.enrollmentId &&
      x.sessionDurationMinutes.isSome)).map (fun x => x.sessionDurationMinutes.getD 0)).sum
    with hnc
  set f : LearningRecord → LearningRecord := fun x => if x.id == latest.id then
      { x with cumulativeLearningMinutes := nc } else x
    with hf
  have hinj := List.inj_on_of_nodup_map hgB
  have hsubl : l1.Sublist st.records := List.filter_sublist _
  have hmem1 : ∀ x ∈ l1, x ∈ st.records := fun x hx => List.mem_of_mem_filter hx
  have hfid : ∀ x, (f x).id = x.id := by
    intro x
    by_cases hxi : x.id = latest.id <;> simp [hf, hxi]
  have hfstart : ∀ x, (f x).sessionStartTime = x.sessionStartTime := by
    intro x
    by_cases hxi : x.id = latest.id <;> simp [hf, hxi]
  have hfdur : ∀ x, (f x).sessionDurationMinutes = x.sessionDurationMinutes := by
    intro x
    by_cases hxi : x.id = latest.id <;> simp [hf, hxi]
  have hfeid : ∀ x, (f x).enrollmentId = x.enrollmentId := by
    intro x
    by_cases hxi : x.id = latest.id <;> simp [hf, hxi]
  have hlmemf : latest ∈ l1.filter (fun x => x.enrollmentId == r.enrollmentId) := by
    rcases laterOf_mem _ none latest hlat with hm | hn
    · exact hm
    · exact absurd hn (by simp)
  have hleid : latest.enrollmentId = r.enrollmentId := by
    simpa using List.of_mem_filter hlmemf
  have hlmemSt : latest ∈ st.records := hmem1 _ (List.mem_of_mem_filter hlmemf)
  have hcomm : ∀ eid, (l1.map f).filter (fun x => x.enrollmentId == eid) =
      (l1.filter (fun x => x.enrollmentId == eid)).map f := by
    intro eid
    rw [List.filter_map]
    congr 1
    apply List.filter_congr
    intro x hx
    simp [Function.comp, hfeid]
  refine ⟨?_, ?_, ?_⟩
  · intro x' hx'
    obtain ⟨x, hx, hfx⟩ := List.mem_map.mp hx'
    obtain ⟨d, hd, hd1⟩ := hgA x (hmem1 x hx)
    exact ⟨d, by rw [← hfx, hfdur, hd], hd1⟩
  · have hmm : (l1.map f).map (fun x => x.id) = l1.map (fun x => x.id) := by
      rw [List.map_map]
      apply List.map_congr_left
      intro x hx
      simp [Function.comp, hfid]
    show ((l1.map f).map (fun x => x.id)).Nodup
    rw [hmm]
    exact (hsubl.map _).nodup hgB
  · intro eid
    by_cases he : eid = r.enrollmentId
    · subst he
      have hlat2 : latestOf ((l1.filter (fun x => x.enrollmentId == r.enrollmentId)).map f) =
          some (f latest) := by
        rw [latestOf_map_preserve f hfstart, hlat]
        rfl
      have hsd : sumDur ((l1.filter (fun x => x.enrollmentId == r.enrollmentId)).map f) =
          sumDur (l1.filter (fun x => x.enrollmentId == r.enrollmentId)) := by
        unfold sumDur
        rw [List.map_map]
        apply congrArg List.sum
        apply List.map_congr_left
        intro x hx
        simp [Function.comp, hfdur]
      have hfc : (f latest).cumulativeLearningMinutes = nc := by
        simp [hf]
      have hncv : nc = sumDur (l1.filter (fun x => x.enrollmentId == r.enrollmentId)) := by
        rw [hnc, remaining_eq_filter st rid r.enrollmentId hgA]
        rfl
      unfold reconciledB
      rw [recordsOf_mk, hcomm, hlat2]
      show ((f latest).cumulativeLearningMinutes ==
        sumDur ((l1.filter (fun x => x.enrollmentId == r.enrollmentId)).map f)) = true
      rw [hfc, hsd, hncv]
      simp
    · have hfixed : (l1.filter (fun x => x.enrollmentId == eid)).map f =
          l1.filter (fun x => x.enrollmentId == eid) := by
        have hptwise : ∀ x ∈ l1.filter (fun x => x.enrollmentId == eid), f x = x := by
          intro x hx
          have hxeid : x.enrollmentId = eid := by simpa using List.of_mem_filter hx
          have hxmem : x ∈ st.records := hmem1 x (List.mem_of_mem_filter hx)
          have hne : x.id ≠ latest.id := by
            intro hcontra
            have hxl : x = latest := hinj hxmem hlmemSt hcontra
            rw [hxl] at hxeid
            exact he (hxeid.symm.trans hleid)
          simp [hf, hne]
        calc (l1.filter (fun x => x.enrollmentId == eid)).map f
            = (l1.filter (fun x => x.enrollmentId == eid)).map id :=
              List.map_congr_left hptwise
          _ = l1.filter (fun x => x.enrollmentId == eid) := List.map_id _
      have hrec : recordsOf { st with records := l1.map f } eid = recordsOf st eid := by
        rw [recordsOf_mk, hcomm, hfixed]
        exact filter_erase_other st rid r eid hgB hrmem hrid he
      rw [reconciledB_congr _ st eid hrec]
      exact hgC eid

theorem delete_preserves (st : Store) (sess : Session) (rid : Nat) (now : Int) (st' : Store)
    (hg : GoodStore st)
    (h : deleteLearningRecord st sess rid now = .ok st') :
    GoodStore st' ∧
    ∀ x' ∈ st'.records, ∃ x, x ∈ st.records ∧
      x'.id = x.id ∧ x'.sessionStartTime = x.sessionStartTime ∧
      x'.sessionDurationMinutes = x.sessionDurationMinutes := by
  obtain ⟨hgA, hgB, hgC⟩ := hg
  unfold deleteLearningRecord at h
  split at h
  · simp at h
  · rename_i r hfind
    split at h
    · simp at h
    · split at h
      · simp at h
      · have hrmem : r ∈ st.records := List.mem_of_find?_eq_some hfind
        have hrid : r.id = rid := by simpa using List.find?_some hfind
        split at h
        · split at h
          · rename_i hlen
            split at h
            · rename_i hlatnone
              exfalso
              rw [remaining_eq_filter st rid r.enrollmentId hgA] at hlen
              have hnnil : (st.records.filter (fun x => x.id != rid)).filter
                  (fun x => x.enrollmentId == r.enrollmentId) ≠ [] := by
                intro hnil
                rw [hnil] at hlen
                simp at hlen
              obtain ⟨m, hm⟩ := latestOf_of_ne_nil _ hnnil
              rw [hm] at hlatnone
              simp at hlatnone
            · rename_i latest hlat
              simp only [Except.ok.injEq] at h
              subst h
              constructor
              · exact delete_good_nonempty st rid r latest hgA hgB hgC hrmem hrid hlat
              · intro x' hx'
                obtain ⟨x, hx, hfx⟩ := List.mem_map.mp hx'
                refine ⟨x, List.mem_of_mem_filter hx, ?_, ?_, ?_⟩ <;>
                  (rw [← hfx]; by_cases hxi : x.id = latest.id <;> simp [hxi])
          · rename_i hlen
            have hrem : (st.records.filter (fun x => x.id != rid)).filter
                (fun x => x.enrollmentId == r.enrollmentId &&
                  x.sessionDurationMinutes.isSome) = [] :=
              List.length_eq_zero.mp (Nat.eq_zero_of_not_pos hlen)
            simp only [Except.ok.injEq] at h
            subst h
            constructor
            · exact delete_good_empty st rid r hgA hgB hgC hrmem hrid hrem
            · intro x' hx'
              exact ⟨x', List.mem_of_mem_filter hx', rfl, rfl, rfl⟩
        · rename_i hfalse
          obtain ⟨d, hd, hd1⟩ := hgA r hrmem
          have htr : truthy r.sessionDurationMinutes = true := by
            rw [hd]
            simp [truthy]
            omega
          exact absurd htr hfalse

/-! ## C1: the trace induction -/

theorem runOps_preserves_good (sess : Session) (ops : List Op) :
    ∀ st : Store,
      GoodStore st →
      OpsFresh st ops →
      (∀ op ∈ ops, opIsUpdate op = false) →
      (∀ op ∈ ops, opCreateDurOk op = true) →
      ops.Pairwise (fun a b => opsOrdered a b = true) →
      GoodStore (runOps sess st ops) := by
  induction ops with
  | nil =>
    intro st hg _ _ _ _
    exact hg
  | cons op ops ih =>
    intro st hg hfresh hnu hdur hpw
    have hruncons : runOps sess st (op :: ops) = runOps sess (runOp sess st op) ops := rfl
    rw [hruncons]
    have hpwhead := (List.pairwise_cons.mp hpw).1
    have hpw' := (List.pairwise_cons.mp hpw).2
    have hnu' : ∀ o ∈ ops, opIsUpdate o = false :=
      fun o ho => hnu o (List.mem_cons_of_mem _ ho)
    have hdur' : ∀ o ∈ ops, opCreateDurOk o = true :=
      fun o ho => hdur o (List.mem_cons_of_mem _ ho)
    cases op with
    | update rid patch now =>
      exact absurd (hnu _ (List.mem_cons_self _ _)) (by simp [opIsUpdate])
    | create inp nid now =>
      have hdok := hdur _ (List.mem_cons_self _ _)
      obtain ⟨d, hd, hd1⟩ : ∃ d, inp.sessionDurationMinutes = some d ∧ 1 ≤ d := by
        cases hsd : inp.sessionDurationMinutes with
        | none => simp [opCreateDurOk, hsd] at hdok
        | some d =>
          refine ⟨d, rfl, ?_⟩
          simp [opCreateDurOk, hsd] at hdok
          exact hdok
      have hfresh_op : ∀ x ∈ st.records,
          x.sessionStartTime < inp.sessionStartTime ∧ x.id ≠ nid := by
        intro x hx
        have hq := hfresh x hx _ (List.mem_cons_self _ _)
        exact ⟨hq.1 inp.sessionStartTime rfl, hq.2 nid rfl⟩
      cases hc : createLearningRecord st sess inp nid now with
      | error e =>
        have hrun : runOp sess st (Op.create inp nid now) = st := by
          simp [runOp, hc]
        rw [hrun]
        refine ih st hg ?_ hnu' hdur' hpw'
        intro x hx o ho
        exact hfresh x hx o (List.mem_cons_of_mem _ ho)
      | ok pr =>
        obtain ⟨r, st'⟩ := pr
        obtain ⟨hg', hrecs, hid, hstart⟩ :=
          create_preserves st sess inp nid now r st' d hg hd hd1 hfresh_op hc
        have hrun : runOp sess st (Op.create inp nid now) = st' := by
          simp [runOp, hc]
        rw [hrun]
        refine ih st' hg' ?_ hnu' hdur' hpw'
        intro x hx o ho
        rw [hrecs] at hx
        rcases List.mem_append.mp hx with hxo | hxn
        · exact hfresh x hxo o (List.mem_cons_of_mem _ ho)
        · have hxr : x = r := by simpa using hxn
          subst hxr
          have hord := hpwhead o ho
          constructor
          · intro s hs
            rw [hstart]
            cases o with
            | create inp2 nid2 now2 =>
              simp only [opsOrdered, opCreateStart, opCreateId, Bool.and_eq_true,
                decide_eq_true_eq] at hord
              have hs2 : inp2.sessionStartTime = s := by simpa [opCreateStart] using hs
              rw [← hs2]
              exact hord.1
            | update rid2 patch2 now2 => simp [opCreateStart] at hs
            | delete rid2 now2 => simp [opCreateStart] at hs
          · intro i hi
            rw [hid]
            cases o with
            | create inp2 nid2 now2 =>
              simp only [opsOrdered, opCreateStart, opCreateId, Bool.and_eq_true,
                decide_eq_true_eq] at hord
              have hi2 : nid2 = i := by simpa [opCreateId] using hi
              rw [← hi2]
              simpa using hord.2
            | update rid2 patch2 now2 => simp [opCreateId] at hi
            | delete rid2 now2 => simp [opCreateId] at hi
    | delete rid now =>
      cases hc : deleteLearningRecord st sess rid now with
      | error e =>
        have hrun : runOp sess st (Op.delete rid now) = st := by
          simp [runOp, hc]
        rw [hrun]
        refine ih st hg ?_ hnu' hdur' hpw'
        intro x hx o ho
        exact hfresh x hx o (List.mem_cons_of_mem _ ho)
      | ok st' =>
        obtain ⟨hg', hcorr⟩ := delete_preserves st sess rid now st' hg hc
        have hrun : runOp sess st (Op.delete rid now) = st' := by
          simp [runOp, hc]
        rw [hrun]
        refine ih st' hg' ?_ hnu' hdur' hpw'
        intro x hx o ho
        obtain ⟨y, hy, hidq, hstartq, _⟩ := hcorr x hx
        have hq := hfresh y hy o (List.mem_cons_of_mem _ ho)
        constructor
        · intro s hs
          rw [hstartq]
          exact hq.1 s hs
        · intro i hi
          rw [hidq]
          exact hq.2 i hi

/-! ## C1: counterexample -/

/-- C1 counterexample: starting from an empty record set, two in-order
creates (durations 10 and 20) followed by an update of the *earlier* record's
duration (10 → 5) leave the enrollment unreconciled: the sum of the remaining
durations is 25, but the chronologically-latest record still stores a
cumulative total of 30, because the update handler rewrites the cumulative
total only on the record being edited. -/
theorem c1_counterexample :
    reconciledB (runOps ⟨99, .admin⟩
        ⟨[⟨1, 10, 20, .assigned, 0, none, none, none⟩], [⟨20, true⟩], []⟩
        [.create ⟨1, 20, 10, 1000, none, some 10, none⟩ 101 0,
         .create ⟨1, 20, 10, 2000, none, some 20, none⟩ 102 0,
         .update 101 ⟨none, some 5, none⟩ 0]) 1 = false ∧
    sumDur (recordsOf (runOps ⟨99, .admin⟩
        ⟨[⟨1, 10, 20, .assigned, 0, none, none, none⟩], [⟨20, true⟩], []⟩
        [.create ⟨1, 20, 10, 1000, none, some 10, none⟩ 101 0,
         .create ⟨1, 20, 10, 2000, none, some 20, none⟩ 102 0,
         .update 101 ⟨none, some 5, none⟩ 0]) 1) = 25 ∧
    (latestOf (recordsOf (runOps ⟨99, .admin⟩
        ⟨[⟨1, 10, 20, .assigned, 0, none, none, none⟩], [⟨20, true⟩], []⟩
        [.create ⟨1, 20, 10, 1000, none, some 10, none⟩ 101 0,
         .create ⟨1, 20, 10, 2000, none, some 20, none⟩ 102 0,
         .update 101 ⟨none, some 5, none⟩ 0]) 1)).map
      (fun l => l.cumulativeLearningMinutes) = some 30 := by
  decide

/-- C1 amended: starting from a store with no learning records, after any
sequence of sequential CreateLearningRecord and DeleteLearningRecord
operations — the creates carrying explicit schema-valid (≥ 1) durations,
strictly increasing `sessionStartTime`s and fresh distinct row ids — every
enrollment is reconciled: the sum of `sessionDurationMinutes` over its
remaining records equals the `cumulativeLearningMinutes` stored on its
chronologically-latest remaining record. The original claim also admits
UpdateLearningRecord, which breaks the invariant (see the counterexample);
out-of-order creates and deletes among null-duration records break it too. -/
theorem c1_reconciliation_creates_deletes
    (sess : Session) (st : Store) (ops : List Op) (eid : Nat)
    (h0 : st.records = [])
    (hnu : ∀ op ∈ ops, opIsUpdate op = false)
    (hdur : ∀ op ∈ ops, opCreateDurOk op = true)
    (hord : ops.Pairwise (fun a b => opsOrdered a b = true)) :
    reconciledB (runOps sess st ops) eid = true := by
  have hg : GoodStore st := by
    refine ⟨?_, ?_, ?_⟩
    · intro r hr
      rw [h0] at hr
      simp at hr
    · rw [h0]
      simp
    · intro e
      unfold reconciledB recordsOf
      rw [h0]
      rfl
  have hfresh : OpsFresh st ops := by
    intro r hr
    rw [h0] at hr
    simp at hr
  exact (runOps_preserves_good sess ops st hg hfresh hnu hdur hord).2.2 eid

/-- Witness for the amended C1: two in-order creates followed by a delete of
the first record leave the enrollment reconciled. -/
theorem c1_witness :
    reconciledB (runOps ⟨99, .admin⟩
      ⟨[⟨1, 10, 20, .assigned, 0, none, none, none⟩], [⟨20, true⟩], []⟩
      [.create ⟨1, 20, 10, 1000, none, some 10, none⟩ 101 0,
       .create ⟨1, 20, 10, 2000, none, some 20, none⟩ 102 0,
       .delete 101 0]) 1 = true :=
  c1_reconciliation_creates_deletes ⟨99, .admin⟩
    ⟨[⟨1, 10, 20, .assigned, 0, none, none, none⟩], [⟨20, true⟩], []⟩
    [.create ⟨1, 20, 10, 1000, none, some 10, none⟩ 101 0,
     .create ⟨1, 20, 10, 2000, none, some 20, none⟩ 102 0,
     .delete 101 0] 1 rfl (by decide) (by decide)
    (by decide)

end LMS
